import Mathlib

/-!
Verification of the Planwise brace-analysis scripts.

The main model is a shallow embedding of `find_brace_mismatches`
(src/find_brace_mismatch.py): a per-line character scanner that tracks an
in-string flag, a (declared but never set) in-comment flag and an escape
flag, pushes `(line, column, stripped-line)` entries for opening braces seen
outside strings, pops on closing braces, reports an extra-closing-brace
error on pop of an empty stack, and at end of input reports the last ten
remaining entries as unclosed braces.

Lines are modelled as lists of characters (the Python code iterates over
the characters of each line); the stack is modelled with its top at the
head of the list (Python appends and pops at the end of `brace_stack`).
-/

/-- Diagnostics printed by `find_brace_mismatches`: the per-brace error
messages.  `extraClosingBrace` carries the 1-based line number and the
stripped line text that the script prints; `unclosedBrace` carries the
line number and stripped text of a leftover stack entry. -/
inductive Diag where
  | extraClosingBrace (lineNum : Nat) (content : String)
  | unclosedBrace (lineNum : Nat) (content : String)
deriving DecidableEq

/-- A stack entry `(line_num, i, line.strip())` as pushed by the Python code. -/
abbrev BraceEntry := Nat × Nat × String

/-- The mutable state of the scan: `brace_stack` (top at head) and the
diagnostics printed so far (in print order). -/
structure ScanAcc where
  stack : List BraceEntry
  diags : List Diag
deriving DecidableEq

/-- Python `line.strip()`: remove whitespace from both ends of the line. -/
def lineStrip (l : List Char) : String :=
  String.mk (((l.dropWhile Char.isWhitespace).reverse.dropWhile Char.isWhitespace).reverse)

/-- Python `i < len(line) - 1 and line[i:i+2] == '//'` at a position whose
current character is `c` and whose remaining characters are `rest`. -/
def commentStart (c : Char) (rest : List Char) : Bool :=
  c == '/' && (match rest with | d :: _ => d == '/' | [] => false)

/-- The brace bookkeeping of one character of `find_brace_mismatches`
(the `if not in_string and not in_comment:` block): push on `{`, pop on
`}` with an extra-closing-brace error when the stack is empty. -/
def braceStep (n : Nat) (s : String) (i : Nat) (c : Char)
    (inString inComment : Bool) (acc : ScanAcc) : ScanAcc :=
  if !inString && !inComment then
    if c = '{' then { acc with stack := (n, i, s) :: acc.stack }
    else if c = '}' then
      match acc.stack with
      | [] => { acc with diags := acc.diags ++ [Diag.extraClosingBrace n s] }
      | _ :: tl => { acc with stack := tl }
    else acc
  else acc

/-- The inner `while i < len(line)` loop of `find_brace_mismatches`:
`n` is the 1-based line number, `s` the stripped line text, `i` the column,
and the three flags are `in_string`, `in_comment` and `escaped`.  Mirrors
the Python branch order: escaped consumption first, then the (state
independent) backslash check, then the line-comment check, then the quote
toggling, then the brace bookkeeping on the updated in-string flag. -/
def scanLineChars (n : Nat) (s : String) :
    List Char → Nat → Bool → Bool → Bool → ScanAcc → ScanAcc
  | [], _, _, _, _, acc => acc
  | c :: rest, i, inString, inComment, escaped, acc =>
    if escaped then
      scanLineChars n s rest (i + 1) inString inComment false acc
    else if c = '\\' then
      scanLineChars n s rest (i + 1) inString inComment true acc
    else if commentStart c rest then
      acc
    else
      let inS := if c = '"' then !inString else inString
      scanLineChars n s rest (i + 1) inS inComment escaped
        (braceStep n s i c inS inComment acc)

/-- The outer `for line_num, line in enumerate(lines, 1)` loop: every line
starts with `in_string = in_comment = escaped = False` and column 0. -/
def scanLines : List (List Char) → Nat → ScanAcc → ScanAcc
  | [], _, acc => acc
  | l :: ls, n, acc =>
      scanLines ls (n + 1) (scanLineChars n (lineStrip l) l 0 false false false acc)

/-- The end-of-input report: Python prints one `Line n: content` message per
entry of `brace_stack[-10:]`, i.e. per entry of the last (at most) ten
remaining entries, iterated from least recently opened to most recently
opened.  With the stack top at the head, those are `(stack.take 10).reverse`. -/
def finalizeDiags (stack : List BraceEntry) : List Diag :=
  ((stack.take 10).reverse).map (fun e => Diag.unclosedBrace e.1 e.2.2)

/-- The whole script on an already-read list of lines: returns the final
stack and the full chronological diagnostic list (scan-time errors followed
by the end-of-input unclosed-brace report). -/
def find_brace_mismatches (lines : List (List Char)) : List BraceEntry × List Diag :=
  let acc := scanLines lines 1 { stack := [], diags := [] }
  (acc.stack, acc.diags ++ finalizeDiags acc.stack)

/-!
An event view of the same scan, used to state well-formedness of an input:
the scanner's structurally significant brace occurrences, in order.
-/

/-- A structurally significant brace occurrence, as classified by the
scanner itself. -/
inductive BraceEv where
  | push (e : BraceEntry)
  | close (lineNum : Nat) (s : String)
deriving DecidableEq

/-- The stack machine driven by a list of brace events; one `push`/`close`
step is exactly `braceStep` on the corresponding character. -/
def runStack : List BraceEv → ScanAcc → ScanAcc
  | [], acc => acc
  | BraceEv.push e :: evs, acc => runStack evs { acc with stack := e :: acc.stack }
  | BraceEv.close n s :: evs, acc =>
    match acc.stack with
    | [] => runStack evs { acc with diags := acc.diags ++ [Diag.extraClosingBrace n s] }
    | _ :: tl => runStack evs { acc with stack := tl }

/-- The event emitted by one character (mirrors `braceStep`). -/
def braceEv (n : Nat) (s : String) (i : Nat) (c : Char)
    (inString inComment : Bool) : List BraceEv :=
  if !inString && !inComment then
    if c = '{' then [BraceEv.push (n, i, s)]
    else if c = '}' then [BraceEv.close n s]
    else []
  else []

/-- The events emitted by one line (mirrors `scanLineChars`). -/
def lineEvents (n : Nat) (s : String) :
    List Char → Nat → Bool → Bool → Bool → List BraceEv
  | [], _, _, _, _ => []
  | c :: rest, i, inString, inComment, escaped =>
    if escaped then
      lineEvents n s rest (i + 1) inString inComment false
    else if c = '\\' then
      lineEvents n s rest (i + 1) inString inComment true
    else if commentStart c rest then
      []
    else
      let inS := if c = '"' then !inString else inString
      braceEv n s i c inS inComment ++ lineEvents n s rest (i + 1) inS inComment escaped

/-- The events emitted by a list of lines (mirrors `scanLines`). -/
def docEvents : List (List Char) → Nat → List BraceEv
  | [], _ => []
  | l :: ls, n => lineEvents n (lineStrip l) l 0 false false false ++ docEvents ls (n + 1)

/-- All structurally significant brace events of an input. -/
def braceEvents (lines : List (List Char)) : List BraceEv :=
  docEvents lines 1

/-- `balancedB evs d = true` iff, starting from depth `d`, every close event
finds a strictly positive depth and the final depth is zero: the event
sequence is well formed (every opening brace matched). -/
def balancedB : List BraceEv → Nat → Bool
  | [], d => d == 0
  | BraceEv.push _ :: evs, d => balancedB evs (d + 1)
  | BraceEv.close _ _ :: evs, d => decide (0 < d) && balancedB evs (d - 1)

/-- Is a diagnostic an unclosed-brace report? -/
def isUnclosedDiag : Diag → Bool
  | Diag.unclosedBrace _ _ => true
  | Diag.extraClosingBrace _ _ => false

/-!
Embedding of `analyze_structure` (src/Scripts/Validation/fix_braces_comprehensive.py):
per-line brace counting on a string-stripped copy of the line, a function
declaration stack driven by a regex search, and an issue list.  The Python
`current_function` variable is write-only (it never influences any output)
and is therefore not carried in the state.
-/

/-- Split a character list at its first double quote: `some (before, after)`
when a quote exists, `none` otherwise. -/
def findQuoteSplit : List Char → Option (List Char × List Char)
  | [] => none
  | '"' :: rest => some ([], rest)
  | c :: rest =>
    match findQuoteSplit rest with
    | some (pre, post) => some (c :: pre, post)
    | none => none

/-- Fuelled worker for `pyCleanSub`; the fuel (initially the length of the
line) strictly dominates the length of the list being processed, so the
zero-fuel branch is never reached. -/
def pyCleanGo : Nat → List Char → List Char
  | 0, l => l
  | fuel + 1, l =>
    match l with
    | [] => []
    | c :: rest =>
      if c = '"' then
        match findQuoteSplit rest with
        | some (_, post) => '"' :: '"' :: pyCleanGo fuel post
        | none => c :: rest
      else c :: pyCleanGo fuel rest

/-- Python `re.sub(r'"[^"]*"', '""', line)`: replace every complete
double-quoted segment (quote, non-quote characters, quote, leftmost first)
by an empty pair of quotes; a trailing unmatched quote is left as is. -/
def pyCleanSub (l : List Char) : List Char :=
  pyCleanGo l.length l

/-- Python `\w` on the ASCII inputs at hand: letters, digits, underscore. -/
def isWordChar (c : Char) : Bool :=
  c.isAlphanum || c = '_'

/-- After the literal `func` of the declaration regex: require at least one
whitespace character (`\s+`) and then at least one word character; the
captured name (`(\w+)`) is the maximal word-character run. -/
def matchAfterFunc (l : List Char) : Option String :=
  match l with
  | c :: _ =>
    if c.isWhitespace then
      match l.dropWhile Char.isWhitespace with
      | d :: rest2 =>
        if isWordChar d then some (String.mk ((d :: rest2).takeWhile isWordChar)) else none
      | [] => none
    else none
  | [] => none

/-- The `\s*func\s+(\w+)` part of the declaration regex, anchored at the
start of `l`. -/
def matchFuncSuffix (l : List Char) : Option String :=
  let t := l.dropWhile Char.isWhitespace
  if ("func".toList).isPrefixOf t then matchAfterFunc (t.drop 4) else none

/-- One anchored attempt of `(private |public |internal )?\s*func\s+(\w+)`:
try the three literal visibility prefixes in alternation order, then the
empty option. -/
def matchFuncAt (l : List Char) : Option String :=
  match (if ("private ".toList).isPrefixOf l then matchFuncSuffix (l.drop 8) else none) with
  | some nm => some nm
  | none =>
    match (if ("public ".toList).isPrefixOf l then matchFuncSuffix (l.drop 7) else none) with
    | some nm => some nm
    | none =>
      match (if ("internal ".toList).isPrefixOf l then matchFuncSuffix (l.drop 9) else none) with
      | some nm => some nm
      | none => matchFuncSuffix l

/-- Python `re.search(r'(private |public |internal )?\s*func\s+(\w+)', line)`:
the captured name of the leftmost successful anchored attempt. -/
def findFuncName : List Char → Option String
  | [] => none
  | c :: rest =>
    match matchFuncAt (c :: rest) with
    | some nm => some nm
    | none => findFuncName rest

/-- Python `line.strip().startswith('//')`. -/
def startsWithSlashSlash (l : List Char) : Bool :=
  match l.dropWhile Char.isWhitespace with
  | '/' :: '/' :: _ => true
  | _ => false

/-- A `function_stack` record of `analyze_structure`. -/
structure FuncRec where
  name : String
  line : Nat
  start_depth : Int
deriving DecidableEq

/-- The issues appended by `analyze_structure`, tagged by kind with the
data interpolated into the Python message strings. -/
inductive Issue where
  | emptyFunc (line : Nat) (name : String)
  | extraClosing (line : Nat)
  | deepNesting (line : Nat) (depth : Int)
  | unclosedFunc (name : String) (line : Nat)
deriving DecidableEq

/-- The loop state of `analyze_structure`: `brace_count` (a Python int, so
an `Int`), `function_stack` (top at head) and the `issues` list in append
order. -/
structure AnalyzeState where
  brace_count : Int
  function_stack : List FuncRec
  issues : List Issue
deriving DecidableEq

/-- The `if function_stack and brace_count <= function_stack[-1]['start_depth']`
block of `analyze_structure`: pop at most one function record when the new
depth `bc` is at or below the top record's start depth, flagging a function
whose pop comes fewer than 3 lines after its declaration (`i` is the
0-based line index, the record stores the 1-based declaration line). -/
def funcPop (i : Nat) (bc : Int) : List FuncRec → List FuncRec × List Issue
  | f :: rest =>
    if bc ≤ f.start_depth then
      (rest, if (i : Int) - (f.line : Int) < 3 then [Issue.emptyFunc (i + 1) f.name] else [])
    else (f :: rest, [])
  | [] => ([], [])

/-- One iteration of the `for i, line in enumerate(lines)` loop of
`analyze_structure` (`i` is the 0-based index): skip comment-prefixed
lines; push a function record when the declaration regex matches and the
raw line contains an opening brace; update the depth with the brace counts
of the string-stripped line; pop via `funcPop`; then append the
negative-depth and deep-nesting issues. -/
def analyzeLine (i : Nat) (l : List Char) (st : AnalyzeState) : AnalyzeState :=
  if startsWithSlashSlash l then st
  else
    let clean := pyCleanSub l
    let stack1 : List FuncRec :=
      match findFuncName l with
      | some nm =>
        if l.contains '{' then ⟨nm, i + 1, st.brace_count⟩ :: st.function_stack
        else st.function_stack
      | none => st.function_stack
    let bc := st.brace_count + (clean.count '{' : Int) - (clean.count '}' : Int)
    let popRes := funcPop i bc stack1
    { brace_count := bc
      function_stack := popRes.1
      issues := st.issues ++ popRes.2
        ++ (if bc < 0 then [Issue.extraClosing (i + 1)] else [])
        ++ (if bc > 5 then [Issue.deepNesting (i + 1) bc] else []) }

/-- The main loop of `analyze_structure`. -/
def analyzeLoop : List (List Char) → Nat → AnalyzeState → AnalyzeState
  | [], _, st => st
  | l :: ls, i, st => analyzeLoop ls (i + 1) (analyzeLine i l st)

/-- `analyze_structure` on an already-read list of lines: run the loop from
an empty state, then report every function remaining on the stack (Python
iterates the list bottom to top) as never closed. -/
def analyze_structure (lines : List (List Char)) : AnalyzeState :=
  let st := analyzeLoop lines 0 ⟨0, [], []⟩
  { st with issues :=
      st.issues ++ st.function_stack.reverse.map (fun f => Issue.unclosedFunc f.name f.line) }

/-- Is an issue a deep-nesting report? -/
def isDeepIssue : Issue → Bool
  | Issue.deepNesting _ _ => true
  | _ => false

/-- The per-line depth update of `analyze_structure`. -/
def newBC (l : List Char) (bc : Int) : Int :=
  bc + ((pyCleanSub l).count '{' : Int) - ((pyCleanSub l).count '}' : Int)

/-- Reference count of deep-nesting reports: one per non-comment-skipped
line whose updated depth exceeds 5. -/
def deepLineCount : List (List Char) → Int → Nat
  | [], _ => 0
  | l :: ls, bc =>
    if startsWithSlashSlash l then deepLineCount ls bc
    else (if newBC l bc > 5 then 1 else 0) + deepLineCount ls (newBC l bc)

/-!
Embedding of the class-end scan of src/check_function_scope.py (lines
23-32): raw per-line brace counts, a `class ChatViewModel` substring test
recording the 1-based start line and the depth before that line, and an end
line assigned the first time the updated depth equals the recorded depth at
a 0-based index `i` exceeding the recorded start line by more than 10.
-/

/-- Substring containment, Python's `pat in line`. -/
def containsSub (pat : List Char) : List Char → Bool
  | [] => pat.isEmpty
  | c :: rest => pat.isPrefixOf (c :: rest) || containsSub pat rest

/-- Python `'class ChatViewModel' in line`. -/
def hasClassDecl (l : List Char) : Bool :=
  containsSub ("class ChatViewModel".toList) l

/-- The `for i, line in enumerate(lines)` loop of check_function_scope.py:
`st` holds `(class_start, initial_depth)` once the declaration has been
seen; the loop returns `class_end` (`none` when the loop finishes without
assigning it). -/
def classEndLoop : List (List Char) → Nat → Int → Option (Nat × Int) → Option Nat
  | [], _, _, _ => none
  | l :: ls, i, depth, st =>
    let st1 := if hasClassDecl l then some (i + 1, depth) else st
    let depth1 := depth + (l.count '{' : Int) - (l.count '}' : Int)
    match st1 with
    | some (cs, d0) =>
      if depth1 = d0 ∧ i > cs + 10 then some (i + 1)
      else classEndLoop ls (i + 1) depth1 st1
    | none => classEndLoop ls (i + 1) depth1 st1

/-- The class-end result of check_function_scope.py on a list of lines. -/
def classEndScan (lines : List (List Char)) : Option Nat :=
  classEndLoop lines 0 0 none

/-- A 13-line input whose class scope opens on line 1 and truly closes on
line 2, followed by eleven empty lines. -/
def classEndProbe : List (List Char) :=
  ("class ChatViewModel ".toList ++ ['{']) :: ['}'] :: List.replicate 11 []

theorem runStack_append (a b : List BraceEv) (acc : ScanAcc) :
    runStack (a ++ b) acc = runStack b (runStack a acc) := by
  induction a generalizing acc with
  | nil => rfl
  | cons e a ih =>
    cases e with
    | push x => simpa only [List.cons_append, runStack] using ih _
    | close m t =>
      obtain ⟨stack, diags⟩ := acc
      cases stack <;> simpa only [List.cons_append, runStack] using ih _

theorem scanLineChars_eq_run (n : Nat) (s : String) (cs : List Char) :
    ∀ (i : Nat) (inString inComment escaped : Bool) (acc : ScanAcc),
    scanLineChars n s cs i inString inComment escaped acc
      = runStack (lineEvents n s cs i inString inComment escaped) acc := by
  induction cs with
  | nil => intro i inString inComment escaped acc; rfl
  | cons c rest ih =>
    intro i inString inComment escaped acc
    cases escaped with
    | true => simpa only [scanLineChars, lineEvents, if_true] using ih _ _ _ _ _
    | false =>
      by_cases hb : c = '\\'
      · simpa only [scanLineChars, lineEvents, hb, if_true, if_false] using ih _ _ _ _ _
      · by_cases hc : commentStart c rest = true
        · simp only [scanLineChars, lineEvents, hb, hc, if_true, if_false, Bool.false_eq_true,
            runStack]
        · simp only [scanLineChars, lineEvents, hb, hc, if_false, Bool.false_eq_true,
            runStack_append]
          rw [ih]
          congr 1
          simp only [braceEv, braceStep]
          by_cases h1 : (!(if c = '"' then !inString else inString) && !inComment) = true
          · simp only [h1, if_true]
            by_cases h2 : c = '{'
            · simp [h2, runStack]
            · by_cases h3 : c = '}'
              · simp only [h2, h3, if_true, if_false]
                obtain ⟨stack, diags⟩ := acc
                cases stack <;> rfl
              · simp [h2, h3, runStack]
          · simp [h1, runStack]

theorem scanLines_eq_run (ls : List (List Char)) :
    ∀ (n : Nat) (acc : ScanAcc),
    scanLines ls n acc = runStack (docEvents ls n) acc := by
  induction ls with
  | nil => intro n acc; rfl
  | cons l ls ih =>
    intro n acc
    simp only [scanLines, docEvents, runStack_append, scanLineChars_eq_run, ih]

theorem runStack_balanced (evs : List BraceEv) :
    ∀ (stack : List BraceEntry) (diags : List Diag),
    balancedB evs stack.length = true →
    runStack evs { stack := stack, diags := diags } = { stack := [], diags := diags } := by
  induction evs with
  | nil =>
    intro stack diags h
    simp only [balancedB, beq_iff_eq] at h
    simp [runStack, List.eq_nil_of_length_eq_zero h]
  | cons e evs ih =>
    intro stack diags h
    cases e with
    | push x =>
      simp only [balancedB] at h
      simpa only [runStack] using ih (x :: stack) diags (by simpa using h)
    | close m t =>
      simp only [balancedB, Bool.and_eq_true, decide_eq_true_eq] at h
      obtain ⟨hpos, hbal⟩ := h
      cases stack with
      | nil => simp at hpos
      | cons x tl =>
        simpa only [runStack] using ih tl diags (by simpa using hbal)

theorem braceStep_filter_unclosed (n : Nat) (s : String) (i : Nat) (c : Char)
    (inString inComment : Bool) (acc : ScanAcc) :
    (braceStep n s i c inString inComment acc).diags.filter isUnclosedDiag
      = acc.diags.filter isUnclosedDiag := by
  unfold braceStep
  by_cases h1 : (!inString && !inComment) = true
  · simp only [h1, if_true]
    by_cases h2 : c = '{'
    · simp [h2]
    · by_cases h3 : c = '}'
      · simp only [h2, h3, if_true, if_false, Bool.false_eq_true]
        obtain ⟨stack, diags⟩ := acc
        cases stack
        · simp [List.filter_append, isUnclosedDiag]
        · simp
      · simp [h2, h3]
  · simp [h1]

theorem scanLineChars_filter_unclosed (n : Nat) (s : String) (cs : List Char) :
    ∀ (i : Nat) (inString inComment escaped : Bool) (acc : ScanAcc),
    (scanLineChars n s cs i inString inComment escaped acc).diags.filter isUnclosedDiag
      = acc.diags.filter isUnclosedDiag := by
  induction cs with
  | nil => intro i inString inComment escaped acc; rfl
  | cons c rest ih =>
    intro i inString inComment escaped acc
    cases escaped with
    | true => simpa only [scanLineChars, if_true] using ih _ _ _ _ _
    | false =>
      by_cases hb : c = '\\'
      · simpa only [scanLineChars, hb, if_true, if_false, Bool.false_eq_true] using ih _ _ _ _ _
      · by_cases hc : commentStart c rest = true
        · simp only [scanLineChars, hb, hc, if_true, if_false, Bool.false_eq_true]
        · simp only [scanLineChars, hb, hc, if_false, Bool.false_eq_true]
          rw [ih, braceStep_filter_unclosed]

theorem scanLines_filter_unclosed (ls : List (List Char)) :
    ∀ (n : Nat) (acc : ScanAcc),
    (scanLines ls n acc).diags.filter isUnclosedDiag = acc.diags.filter isUnclosedDiag := by
  induction ls with
  | nil => intro n acc; rfl
  | cons l ls ih =>
    intro n acc
    simp only [scanLines]
    rw [ih, scanLineChars_filter_unclosed]

theorem finalizeDiags_filter_unclosed (stack : List BraceEntry) :
    (finalizeDiags stack).filter isUnclosedDiag = finalizeDiags stack := by
  rw [List.filter_eq_self]
  intro a ha
  simp only [finalizeDiags, List.mem_map] at ha
  obtain ⟨e, _, rfl⟩ := ha
  rfl

theorem funcPop_no_deep (i : Nat) (bc : Int) (s : List FuncRec) :
    ((funcPop i bc s).2).countP isDeepIssue = 0 := by
  cases s with
  | nil => rfl
  | cons f rest =>
    unfold funcPop
    by_cases h1 : bc ≤ f.start_depth
    · simp only [h1, if_true]
      by_cases h2 : (i : Int) - (f.line : Int) < 3
      · simp [h2, isDeepIssue]
      · simp [h2]
    · simp [h1]

theorem analyzeLine_brace_count (i : Nat) (l : List Char) (st : AnalyzeState) :
    (analyzeLine i l st).brace_count
      = if startsWithSlashSlash l then st.brace_count else newBC l st.brace_count := by
  unfold analyzeLine newBC
  split <;> rfl

theorem analyzeLine_deep (i : Nat) (l : List Char) (st : AnalyzeState) :
    (analyzeLine i l st).issues.countP isDeepIssue
      = st.issues.countP isDeepIssue
        + (if startsWithSlashSlash l then 0
           else if newBC l st.brace_count > 5 then 1 else 0) := by
  by_cases h : startsWithSlashSlash l = true
  · simp [analyzeLine, h]
  · simp only [analyzeLine, h, Bool.false_eq_true, if_false, List.countP_append, newBC,
      funcPop_no_deep]
    by_cases h2 : st.brace_count + ((pyCleanSub l).count '{' : Int) - ((pyCleanSub l).count '}' : Int) < 0
    · by_cases h3 : st.brace_count + ((pyCleanSub l).count '{' : Int) - ((pyCleanSub l).count '}' : Int) > 5
      · simp [h2, h3, isDeepIssue]
      · simp [h2, h3, isDeepIssue]
    · by_cases h3 : st.brace_count + ((pyCleanSub l).count '{' : Int) - ((pyCleanSub l).count '}' : Int) > 5
      · simp [h2, h3, isDeepIssue]
      · simp [h2, h3, isDeepIssue]

theorem analyzeLoop_deep (ls : List (List Char)) :
    ∀ (i : Nat) (st : AnalyzeState),
    (analyzeLoop ls i st).issues.countP isDeepIssue
      = st.issues.countP isDeepIssue + deepLineCount ls st.brace_count := by
  induction ls with
  | nil => intro i st; simp [analyzeLoop, deepLineCount]
  | cons l ls ih =>
    intro i st
    simp only [analyzeLoop]
    rw [ih, analyzeLine_deep, analyzeLine_brace_count]
    by_cases h : startsWithSlashSlash l = true
    · simp [deepLineCount, h]
    · simp only [deepLineCount, h, Bool.false_eq_true, if_false]
      by_cases h2 : newBC l st.brace_count > 5
      · simp [h2]; omega
      · simp [h2]

theorem unclosedFunc_map_no_deep (fs : List FuncRec) :
    (fs.map (fun f => Issue.unclosedFunc f.name f.line)).countP isDeepIssue = 0 := by
  induction fs with
  | nil => rfl
  | cons f fs ih => simp [List.countP_cons, ih, isDeepIssue]

theorem classEndLoop_bounds (ls : List (List Char)) :
    ∀ (i : Nat) (depth : Int) (st : Option (Nat × Int)) (e : Nat),
    (∀ cs d0, st = some (cs, d0) → 1 ≤ cs) →
    classEndLoop ls i depth st = some e → 13 ≤ e ∧ e ≤ i + ls.length := by
  induction ls with
  | nil =>
    intro i depth st e hinv h
    simp [classEndLoop] at h
  | cons l ls ih =>
    intro i depth st e hinv h
    simp only [classEndLoop] at h
    have hinv1 : ∀ cs d0,
        (if hasClassDecl l = true then some (i + 1, depth) else st) = some (cs, d0) → 1 ≤ cs := by
      intro cs d0 hcd
      by_cases hc : hasClassDecl l = true
      · rw [if_pos hc] at hcd
        simp only [Option.some.injEq, Prod.mk.injEq] at hcd
        omega
      · rw [if_neg hc] at hcd
        exact hinv _ _ hcd
    simp only [List.length_cons]
    split at h
    · split at h
      · rename_i cs d0 heq hg
        have he : i + 1 = e := Option.some.inj h
        have hcs : 1 ≤ cs := hinv1 cs d0 heq
        omega
      · have hr := ih (i + 1) _ _ e hinv1 h
        omega
    · have hr := ih (i + 1) _ _ e hinv1 h
      omega

/-- Claim C1: a closing brace scanned in code state (not escaped, not in a
string) against an empty stack makes the scanner append exactly one
extra-closing-brace diagnostic for that line, leave the stack empty (depth
stays 0, it never goes negative — the stack is a list, popping is total),
and continue the scan with the remaining characters of the line on the same
accumulator, so later diagnostics are still collected. -/
theorem extraClosing_emits_and_continues (n : Nat) (s : String) (rest : List Char)
    (i : Nat) (diags : List Diag) :
    scanLineChars n s ('}' :: rest) i false false false { stack := [], diags := diags }
      = scanLineChars n s rest (i + 1) false false false
          { stack := [], diags := diags ++ [Diag.extraClosingBrace n s] } := rfl

/-- Claim C2, counterexample: with eleven unmatched opening braces (one per
line), eleven entries remain on the stack but only ten unclosed-brace
diagnostics are printed (the oldest entry, line 1, is omitted), and they
come out from least recently opened to most recently opened (line 2 first),
not innermost-first as the claim states. -/
theorem unclosedReport_cap_order_cex :
    (find_brace_mismatches (List.replicate 11 ['{'])).1.length = 11 ∧
    (find_brace_mismatches (List.replicate 11 ['{'])).2 =
      [Diag.unclosedBrace 2 (String.mk ['{']), Diag.unclosedBrace 3 (String.mk ['{']),
       Diag.unclosedBrace 4 (String.mk ['{']), Diag.unclosedBrace 5 (String.mk ['{']),
       Diag.unclosedBrace 6 (String.mk ['{']), Diag.unclosedBrace 7 (String.mk ['{']),
       Diag.unclosedBrace 8 (String.mk ['{']), Diag.unclosedBrace 9 (String.mk ['{']),
       Diag.unclosedBrace 10 (String.mk ['{']), Diag.unclosedBrace 11 (String.mk ['{'])] := by
  constructor
  · rfl
  · rfl

/-- Claim C2, amended: at end of input the unclosed-brace diagnostics in the
output are exactly one per entry of the last at-most-ten remaining stack
entries (entries beyond the tenth-most-recent are omitted), ordered from
least recently opened to most recently opened among those reported; the
scan phase itself never emits an unclosed-brace diagnostic. -/
theorem unclosedReport_lastTen_oldestFirst (lines : List (List Char)) :
    ((find_brace_mismatches lines).2).filter isUnclosedDiag
      = (((find_brace_mismatches lines).1).take 10).reverse.map
          (fun e => Diag.unclosedBrace e.1 e.2.2) := by
  simp only [find_brace_mismatches, List.filter_append]
  rw [scanLines_filter_unclosed]
  have hfin := finalizeDiags_filter_unclosed (scanLines lines 1 { stack := [], diags := [] }).stack
  simp only [List.filter_nil, List.nil_append]
  rw [hfin]
  rfl

/-- Claim C3, counterexample: on the single line backslash-then-brace, the
backslash is scanned in code state, yet it sets the escape flag and the
following opening brace is consumed without being counted: the final stack
is empty and no diagnostic is produced, while the claim requires the brace
to contribute to depth (which would leave one unclosed brace). -/
theorem backslash_code_brace_not_counted :
    find_brace_mismatches [['\\', '{']] = ([], []) := rfl

/-- Claim C3, amended: a backslash sets the escape flag regardless of the
current lexical state — also in code state — so the character immediately
following a backslash outside any string literal is consumed without effect
and a brace there does not contribute to depth. -/
theorem backslash_always_escapes (n : Nat) (s : String) (c : Char) (rest : List Char)
    (i : Nat) (inString inComment : Bool) (acc : ScanAcc) :
    scanLineChars n s ('\\' :: c :: rest) i inString inComment false acc
      = scanLineChars n s rest (i + 2) inString inComment false acc := rfl

/-- Claim C4, counterexample: on the line quote a slash slash b quote brace,
the two slashes occur inside the string literal, yet the comment check runs
before the string check, so the rest of the line — including the code-state
closing brace after the string — is discarded: the scan ends with no
diagnostic at all, while the claim requires the closing brace to be
processed (which would emit an extra-closing-brace diagnostic at line 1). -/
theorem slashslash_in_string_stops_line :
    find_brace_mismatches [['"', 'a', '/', '/', 'b', '"', '}']] = ([], []) := rfl

/-- Claim C4, amended: two consecutive slashes (with the first not escaped)
abort the scan of the line in every lexical state, inside a string literal
as well as in code state, so braces later on that line are never counted. -/
theorem slashslash_breaks_any_state (n : Nat) (s : String) (rest : List Char)
    (i : Nat) (inString inComment : Bool) (acc : ScanAcc) :
    scanLineChars n s ('/' :: '/' :: rest) i inString inComment false acc = acc := rfl

/-- Claim C5, counterexample: a brace on a line between a block-comment
opener line and its terminator line is counted as code — the scan of
slash-star, brace, star-slash ends with one entry on the stack and one
unclosed-brace diagnostic — while the claim requires depth to be unchanged
and no diagnostic. -/
theorem blockComment_brace_counted :
    find_brace_mismatches [['/', '*'], ['{'], ['*', '/']]
      = ([(2, 0, String.mk ['{'])], [Diag.unclosedBrace 2 (String.mk ['{'])]) := rfl

/-- Claim C5, amended: the scanner has no block-comment state (its
in-comment flag is declared but never set, and only the two-slash line
comment is recognized): a line consisting of a block-comment opener, and
one consisting of its terminator, have no effect whatsoever on the scan
state, so braces between them are classified and counted as ordinary
code. -/
theorem blockComment_delimiters_no_effect :
    (∀ (n : Nat) (acc : ScanAcc) (ls : List (List Char)),
      scanLines (['/', '*'] :: ls) n acc = scanLines ls (n + 1) acc)
    ∧ (∀ (n : Nat) (acc : ScanAcc) (ls : List (List Char)),
      scanLines (['*', '/'] :: ls) n acc = scanLines ls (n + 1) acc) :=
  ⟨fun _ _ _ => rfl, fun _ _ _ => rfl⟩

/-- Claim C6: a brace scanned while the in-string flag is set (an opening or
a closing one) changes neither the stack nor the diagnostics — the scan
simply moves on — and on the spec's concrete scenario (an opening brace
inside a string literal on one line, a closing brace inside a string
literal on a later line) the whole scan ends with depth 0, an empty stack
and no diagnostic. -/
theorem string_braces_never_affect_depth :
    (∀ (n : Nat) (s : String) (rest : List Char) (i : Nat) (inComment : Bool) (acc : ScanAcc),
      scanLineChars n s ('{' :: rest) i true inComment false acc
        = scanLineChars n s rest (i + 1) true inComment false acc)
    ∧ (∀ (n : Nat) (s : String) (rest : List Char) (i : Nat) (inComment : Bool) (acc : ScanAcc),
      scanLineChars n s ('}' :: rest) i true inComment false acc
        = scanLineChars n s rest (i + 1) true inComment false acc)
    ∧ find_brace_mismatches
        [("let s = ".toList ++ ['"', '{', '"']), ['"', '}', '"']] = ([], []) :=
  ⟨fun _ _ _ _ _ _ => rfl, fun _ _ _ _ _ _ => rfl, rfl⟩

/-- Claim C7, counterexample: six opening-brace lines push the depth to 6
(above the threshold 5) and a following blank line keeps it there; the code
appends a deep-nesting issue on both lines — two issues for one threshold
crossing — while the claim requires exactly one. -/
theorem deepNesting_per_line_cex :
    (analyze_structure (List.replicate 6 ['{'] ++ [[' ']])).issues
      = [Issue.deepNesting 6 6, Issue.deepNesting 7 6] := rfl

/-- Claim C7, amended: a deep-nesting issue is appended once per
non-comment-skipped line whose end-of-line depth exceeds the hard-coded
threshold 5 (the threshold is not configurable and the check uses the
depth after the whole line's update, not per code-state character), so an
input whose depth stays above the threshold for k such lines receives
exactly k deep-nesting issues, one per line, not one per crossing. -/
theorem deepNesting_once_per_line (lines : List (List Char)) :
    (analyze_structure lines).issues.countP isDeepIssue = deepLineCount lines 0 := by
  simp only [analyze_structure, List.countP_append, analyzeLoop_deep,
    unclosedFunc_map_no_deep]
  simp [deepLineCount]

/-- Claim C8: when the scanner's code-state brace events form a balanced
sequence (every close event finds an open brace and the final depth is
zero — the well-formedness of the claim, stated on the scanner's own
classification), the whole analysis produces an empty stack (final depth
0) and not a single diagnostic, neither extra-closing-brace nor
unclosed-brace; and the empty input is a valid zero-diagnostic scan. -/
theorem balanced_scan_clean (lines : List (List Char))
    (h : balancedB (braceEvents lines) 0 = true) :
    find_brace_mismatches lines = ([], [])
    ∧ find_brace_mismatches ([] : List (List Char)) = ([], []) := by
  constructor
  · have h1 : scanLines lines 1 { stack := [], diags := [] }
        = { stack := [], diags := [] } := by
      rw [scanLines_eq_run]
      exact runStack_balanced _ [] [] h
    simp [find_brace_mismatches, h1, finalizeDiags]
  · rfl

/-- Witness for claim C8: the two-line input consisting of an opening-brace
line and a closing-brace line has balanced brace events, and applying the
theorem there yields the clean result. -/
theorem balanced_scan_clean_witness :
    balancedB (braceEvents [['{'], ['}']]) 0 = true
    ∧ (find_brace_mismatches [['{'], ['}']] = ([], [])
       ∧ find_brace_mismatches ([] : List (List Char)) = ([], [])) :=
  ⟨by decide, balanced_scan_clean [['{'], ['}']] (by decide)⟩

/-- Claim C9: every line of the outer loop starts the inner scan with the
in-string, in-comment and escape flags false and column 0, so string state
never persists across a line boundary; a line consisting of a lone
(unterminated) quote leaves the accumulator untouched and later lines are
scanned exactly as if it were absent; concretely, after a line opening a
string that never closes and containing an opening brace, the closing
brace on the next line is still counted — it reports an extra closing
brace instead of being swallowed by the stale string state. -/
theorem line_state_reset :
    (∀ (l : List Char) (ls : List (List Char)) (n : Nat) (acc : ScanAcc),
      scanLines (l :: ls) n acc
        = scanLines ls (n + 1) (scanLineChars n (lineStrip l) l 0 false false false acc))
    ∧ (∀ (ls : List (List Char)) (n : Nat) (acc : ScanAcc),
      scanLines (['"'] :: ls) n acc = scanLines ls (n + 1) acc)
    ∧ find_brace_mismatches [['"', '{'], ['}']]
        = ([], [Diag.extraClosingBrace 2 (String.mk ['}'])]) :=
  ⟨fun _ _ _ _ => rfl, fun _ _ _ => rfl, rfl⟩

/-- Claim C10, counterexample: in a 13-line input whose tracked class opens
on line 1 and truly closes on line 2 — earlier than the hard-coded bound —
the scope is nevertheless marked as ended (at line 13, the first line whose
0-based index exceeds the stored start line by more than 10 while the
depth again equals the initial depth), while the claim says it is never
marked as ended. -/
theorem classEnd_assigned_late :
    classEndScan classEndProbe = some 13 := rfl

/-- Claim C10, amended: scope-end resolution fires only past the hard-coded
minimum distance — an end line is assigned only at a 0-based index
exceeding the stored 1-based start line by more than 10, so any assigned
end line is at least 13 (and lies within the file); an input whose class
closes earlier than that bound is not marked at its true closing line: it
is marked at the first qualifying later line where the depth again equals
the recorded initial depth, or not at all. -/
theorem classEnd_min_line (lines : List (List Char)) (e : Nat)
    (h : classEndScan lines = some e) : 13 ≤ e ∧ e ≤ lines.length := by
  have hr := classEndLoop_bounds lines 0 0 none e (by intro cs d0 hcd; cases hcd) h
  simpa using hr

/-- Witness for claim C10: on the 13-line probe input the scan assigns end
line 13, and the theorem applied there bounds it accordingly. -/
theorem classEnd_min_line_witness :
    classEndScan classEndProbe = some 13 ∧ (13 ≤ 13 ∧ 13 ≤ classEndProbe.length) :=
  ⟨rfl, classEnd_min_line classEndProbe 13 rfl⟩
